import Mathlib

/-!
Verification of the web-terminal core: the path resolver, the virtual
filesystem store (`fileSystem.ts`) and the command dispatcher
(`executeCommand` and its handlers).  JavaScript strings are embedded as
Lean `String`s; the JS string library calls used by the source
(`split`, `join`, `includes`, `startsWith`, `replace(/\/$/,'')`,
`substring`/`lastIndexOf`, `parseInt`, `slice`) are given explicit
executable models below.  The in-place mutation of the filesystem tree
performed by `createFile`/`createDirectory` is embedded as a functional
rebuild along the lookup path, which coincides with the source because the
tree is alias-free (every node has exactly one parent).
-/

namespace WebTerm

/-! ## JS string-operation models (over `List Char`) -/

/-- Model of JS `String.prototype.split(sep)` at the character-list level:
splitting the empty string yields `[[]]`, consecutive separators yield empty
pieces, exactly as in JS. -/
def splitChars (sep : Char) : List Char → List (List Char)
  | [] => [[]]
  | c :: rest =>
    match splitChars sep rest with
    | [] => [[]]
    | g :: gs => if c = sep then [] :: g :: gs else (c :: g) :: gs

/-- JS `s.split(sep)` on strings. -/
def jsSplit (sep : Char) (s : String) : List String :=
  (splitChars sep s.data).map String.mk

/-- JS `s.split('/').filter(Boolean)`: split on `/` and drop empty pieces. -/
def splitFilterB (s : String) : List String :=
  (jsSplit '/' s).filter (· ≠ "")

/-- JS `Array.prototype.join(sep)`. -/
def joinWith (sep : String) : List String → String
  | [] => ""
  | [x] => x
  | x :: y :: rest => x ++ sep ++ joinWith sep (y :: rest)

/-- JS `parts.join('/')`. -/
def joinSlash (parts : List String) : String := joinWith "/" parts

/-- JS `s.startsWith('/')`. -/
def startsSlash (s : String) : Bool :=
  match s.data with
  | [] => false
  | c :: _ => c = '/'

/-- `true` iff the last character of `s` is `/`. -/
def endsSlash (s : String) : Bool :=
  match s.data.reverse with
  | '/' :: _ => true
  | _ => false

/-- `true` iff `s` ends with two consecutive `/` characters. -/
def ends2Slash (s : String) : Bool :=
  match s.data.reverse with
  | '/' :: '/' :: _ => true
  | _ => false

/-- Model of JS `path.replace(/\/$/, '')`: remove one trailing slash. -/
def stripTrail (s : String) : String :=
  match s.data.reverse with
  | '/' :: rest => String.mk rest.reverse
  | _ => s

/-- Split a character list at its *last* `/`: returns the part before and the
part after, or `none` when no `/` occurs.  This models the
`substring(0, lastIndexOf('/'))` / `substring(lastIndexOf('/') + 1)` pair
used by `createFile`/`createDirectory`. -/
def lastSplit : List Char → Option (List Char × List Char)
  | [] => none
  | c :: rest =>
    match lastSplit rest with
    | some (a, b) => some (c :: a, b)
    | none => if c = '/' then some ([], rest) else none

/-- JS `path.substring(0, path.lastIndexOf('/')) || '/'`. -/
def parentOf (path : String) : String :=
  match lastSplit path.data with
  | none => "/"
  | some (a, _) => if a = [] then "/" else String.mk a

/-- JS `path.substring(path.lastIndexOf('/') + 1)`. -/
def leafOf (path : String) : String :=
  match lastSplit path.data with
  | none => path
  | some (_, b) => String.mk b

/-- `true` iff `pat` is an initial segment of `hay` (both as char lists). -/
def beginsWith : List Char → List Char → Bool
  | _, [] => true
  | [], _ :: _ => false
  | c :: cs, p :: ps => c = p && beginsWith cs ps

/-- Substring search on char lists. -/
def subSearch (pat : List Char) : List Char → Bool
  | [] => beginsWith [] pat
  | c :: rest => beginsWith (c :: rest) pat || subSearch pat rest

/-- Model of JS `s.includes(pat)`: literal substring containment. -/
def jsIncludes (s pat : String) : Bool := subSearch pat.data s.data

/-- Accumulate the value of a leading run of decimal digits. -/
def parseDigits : List Char → Nat → Nat
  | [], acc => acc
  | c :: rest, acc =>
    if c.isDigit then parseDigits rest (acc * 10 + (c.toNat - 48)) else acc

/-- `true` iff the list begins with a decimal digit. -/
def hasLeadDigit : List Char → Bool
  | [] => false
  | c :: _ => c.isDigit

/-- Model of JS `parseInt(s)` for decimal inputs: skip leading whitespace,
accept an optional sign, then read the leading run of decimal digits;
`none` models `NaN`.  (Radix prefixes such as `0x` are outside the inputs
exercised here and are not modelled.) -/
def jsParseInt (s : String) : Option Int :=
  let t := s.data.dropWhile fun c => c = ' ' || c = '\t' || c = '\n' || c = '\r'
  match t with
  | '-' :: rest => if hasLeadDigit rest then some (-(parseDigits rest 0 : Int)) else none
  | '+' :: rest => if hasLeadDigit rest then some ((parseDigits rest 0 : Int)) else none
  | _ => if hasLeadDigit t then some ((parseDigits t 0 : Int)) else none

/-- JS `a.slice(0, e)` on lists: a non-negative `e` takes the first `e`
elements, a negative `e` counts from the end. -/
def jsSliceTo (l : List String) (e : Int) : List String :=
  if e < 0 then l.take ((l.length + e).toNat) else l.take e.toNat

/-- JS `a.slice(s)` on lists: a non-negative `s` drops the first `s`
elements, a negative `s` keeps the last `-s` elements. -/
def jsSliceFrom (l : List String) (s : Int) : List String :=
  if s < 0 then l.drop ((l.length + s).toNat) else l.drop s.toNat

/-- JS `n.toString().padStart(w)`. -/
def padStartNum (n : Nat) (w : Nat) : String :=
  let s := toString n
  String.mk (List.replicate (w - s.length) ' ') ++ s

/-! ## Data model (`types.ts`) -/

/-- The `type` field of `FileSystemItem`: `'file' | 'directory'`. -/
inductive ItemType where
  | file
  | directory
deriving DecidableEq, Repr

/-- `FileSystemItem` from `types.ts`.  `children` is a JS object
(string-keyed record), embedded as an association list whose keys are unique;
`content` and `children` are optional exactly as in the interface.  The
`modified : Date` field (wall-clock, set at creation, display-only) is not
modelled. -/
inductive Item where
  | node (name : String) (type : ItemType) (content : Option String)
      (children : Option (List (String × Item)))
      (permissions owner group : String) (size : Nat)

def Item.name : Item → String
  | .node n _ _ _ _ _ _ _ => n

def Item.type : Item → ItemType
  | .node _ t _ _ _ _ _ _ => t

def Item.content : Item → Option String
  | .node _ _ c _ _ _ _ _ => c

def Item.children : Item → Option (List (String × Item))
  | .node _ _ _ ch _ _ _ _ => ch

def Item.permissions : Item → String
  | .node _ _ _ _ p _ _ _ => p

def Item.owner : Item → String
  | .node _ _ _ _ _ o _ _ => o

def Item.group : Item → String
  | .node _ _ _ _ _ _ g _ => g

def Item.size : Item → Nat
  | .node _ _ _ _ _ _ _ s => s

/-- Replace the `children` field of a node. -/
def Item.withChildren : Item → Option (List (String × Item)) → Item
  | .node n t c _ p o g s, ch => .node n t c ch p o g s

@[simp] theorem Item.children_withChildren (it : Item) (ch : Option (List (String × Item))) :
    (it.withChildren ch).children = ch := by
  cases it; rfl

@[simp] theorem Item.type_withChildren (it : Item) (ch : Option (List (String × Item))) :
    (it.withChildren ch).type = it.type := by
  cases it; rfl

/-- JS object read `record[key]`: first (unique) binding of the key. -/
def recordGet (cs : List (String × Item)) (k : String) : Option Item :=
  (cs.find? fun e => e.1 = k).map (·.2)

/-- JS object write `record[key] = v`: replace the existing binding in
place, or append a new one. -/
def recordSet : List (String × Item) → String → Item → List (String × Item)
  | [], k, v => [(k, v)]
  | (k', v') :: rest, k, v =>
    if k' = k then (k, v) :: rest else (k', v') :: recordSet rest k v

/-- `CommandResult` from `types.ts`. -/
structure CommandResult where
  output : String
  error : Option String := none
  exitCode : Nat
deriving DecidableEq, Repr

/-! ## Virtual filesystem store (`fileSystem.ts`) -/

/-- A file node exactly as `createFile` builds it (`modified` omitted). -/
def mkFileNode (fileName content : String) : Item :=
  .node fileName .file (some content) none "-rw-r--r--" "user" "user" content.length

/-- A directory node exactly as `createDirectory` builds it. -/
def mkDirNode (dirName : String) : Item :=
  .node dirName .directory none (some []) "drwxr-xr-x" "user" "user" 4096

/-- The walking loop of `getItemAtPath`: follow `children` one segment at a
time, failing the moment a segment is absent or the node has no `children`. -/
def walkSegs : List String → Item → Option Item
  | [], cur => some cur
  | s :: rest, cur =>
    match cur.children with
    | none => none
    | some cs =>
      match recordGet cs s with
      | none => none
      | some c => walkSegs rest c

/-- `getItemAtPath` from `fileSystem.ts`.  The filesystem record
`Record<string, FileSystemItem>` holds the single root under key `'/'`;
we embed it as the root `Item` directly. -/
def getItemAtPath (root : Item) (path : String) : Option Item :=
  if path = "/" then some root
  else walkSegs (splitFilterB path) root

/-- `resolvePath`'s stack step for one segment of a relative path:
`..` pops, `.` and empty segments are skipped, others are pushed. -/
def resolveStep (st : List String) (part : String) : List String :=
  if part = ".." then st.dropLast
  else if part ≠ "." ∧ part ≠ "" then st ++ [part]
  else st

/-- `resolvePath` from `fileSystem.ts`. -/
def resolvePath (currentDir path : String) : String :=
  if startsSlash path then
    if path = "/" then "/" else stripTrail path
  else if path = "." then currentDir
  else if path = ".." then
    let parts := (splitFilterB currentDir).dropLast
    if parts = [] then "/" else "/" ++ joinSlash parts
  else
    let parts := jsSplit '/' path
    let base := if currentDir = "/" then [] else splitFilterB currentDir
    let final := parts.foldl resolveStep base
    if final = [] then "/" else "/" ++ joinSlash final

/-- Functional image of the in-place write `parent.children[name] = child`
performed after `getItemAtPath(parentPath)` succeeded: rebuild the tree along
the segments of the parent path and insert the child there.  When the walk
cannot proceed (never the case under `createFile`/`createDirectory`'s guard)
the tree is returned unchanged. -/
def setChildAt (cur : Item) : List String → String → Item → Item
  | [], name, child =>
    match cur.children with
    | some cs => cur.withChildren (some (recordSet cs name child))
    | none => cur
  | s :: rest, name, child =>
    match cur.children with
    | some cs =>
      match recordGet cs s with
      | some c => cur.withChildren (some (recordSet cs s (setChildAt c rest name child)))
      | none => cur
    | none => cur

/-- `createFile` from `fileSystem.ts`: split the path at its last `/` into
parent path and leaf name; fail (returning the tree unchanged, as the source
returns `false` before any mutation) unless the parent looks up to a
directory node with a `children` record; otherwise insert/overwrite a fresh
file node under the parent. -/
def createFile (fs : Item) (path : String) (content : String := "") : Bool × Item :=
  let parentPath := parentOf path
  let fileName := leafOf path
  match getItemAtPath fs parentPath with
  | none => (false, fs)
  | some parent =>
    if parent.type = ItemType.directory ∧ parent.children.isSome then
      (true, setChildAt fs (splitFilterB parentPath) fileName (mkFileNode fileName content))
    else (false, fs)

/-- `createDirectory` from `fileSystem.ts`: same split and precondition as
`createFile`; inserts/overwrites a directory node with empty `children`. -/
def createDirectory (fs : Item) (path : String) : Bool × Item :=
  let parentPath := parentOf path
  let dirName := leafOf path
  match getItemAtPath fs parentPath with
  | none => (false, fs)
  | some parent =>
    if parent.type = ItemType.directory ∧ parent.children.isSome then
      (true, setChildAt fs (splitFilterB parentPath) dirName (mkDirNode dirName))
    else (false, fs)

/-- `createInitialFileSystem` from `fileSystem.ts` (the single root under
key `'/'` of the record, embedded directly; `modified` timestamps omitted). -/
def createInitialFileSystem : Item :=
  .node "/" .directory none (some [
    ("home", .node "home" .directory none (some [
      ("user", .node "user" .directory none (some [
        ("documents", .node "documents" .directory none (some [
          ("readme.txt", .node "readme.txt" .file
            (some "Welcome to the Web Terminal!\n\nThis is a simulated Linux environment.\nTry commands like: ls, cd, pwd, cat, mkdir, touch, echo\n\nHave fun exploring!")
            none "-rw-r--r--" "user" "user" 142),
          ("project.md", .node "project.md" .file
            (some "# My Project\n\nThis is a markdown file with project documentation.\n\n## Features\n- Terminal simulation\n- File system operations\n- Command history\n\n## Usage\nUse standard Linux commands to navigate and interact with the file system.")
            none "-rw-r--r--" "user" "user" 203)
        ]) "drwxr-xr-x" "user" "user" 4096),
        ("scripts", .node "scripts" .directory none (some [
          ("hello.sh", .node "hello.sh" .file
            (some "#!/bin/bash\necho \"Hello, World!\"\necho \"Welcome to the terminal simulator!\"")
            none "-rwxr-xr-x" "user" "user" 75)
        ]) "drwxr-xr-x" "user" "user" 4096)
      ]) "drwxr-xr-x" "user" "user" 4096)
    ]) "drwxr-xr-x" "root" "root" 4096),
    ("etc", .node "etc" .directory none (some [
      ("hosts", .node "hosts" .file
        (some "127.0.0.1\tlocalhost\n::1\t\tlocalhost ip6-localhost ip6-loopback\n")
        none "-rw-r--r--" "root" "root" 67)
    ]) "drwxr-xr-x" "root" "root" 4096),
    ("var", .node "var" .directory none (some [
      ("log", .node "log" .directory none (some []) "drwxr-xr-x" "root" "root" 4096)
    ]) "drwxr-xr-x" "root" "root" 4096)
  ]) "drwxr-xr-x" "root" "root" 4096

/-! ## Command handlers (`commands.ts`) -/

/-- JS `s.startsWith(pre)`. -/
def jsStartsWith (s pre : String) : Bool := beginsWith s.data pre.data

/-- The `-l` date column of `ls` renders `modified.toLocaleDateString(...)`,
a wall-clock value that is not modelled; it appears here as the empty
string.  No claim depends on `ls` output. -/
def lsDate : String := ""

/-- One long-format `ls -l` line. -/
def lsLongLine (it : Item) : String :=
  it.permissions ++ " 1 " ++ it.owner ++ " " ++ it.group ++ " "
    ++ padStartNum it.size 8 ++ " " ++ lsDate ++ " " ++ it.name

/-- The synthetic `.` / `..` rows injected by `ls -a`. -/
def synthDotRow (nm : String) : Item :=
  .node nm .directory none none "drwxr-xr-x" "user" "user" 4096

/-- `handleLs`. -/
def handleLs (args : List String) (currentDir : String) (fs : Item) : CommandResult :=
  let showAll := args.contains "-a" || args.contains "-la" || args.contains "-al"
  let longFmt := args.contains "-l" || args.contains "-la" || args.contains "-al"
  let targetPath := (args.find? fun a => !(jsStartsWith a "-")).getD currentDir
  let resolvedPath := resolvePath currentDir targetPath
  match getItemAtPath fs resolvedPath with
  | none =>
    { output := "", error := some ("ls: cannot access \x27" ++ targetPath ++ "\x27: No such file or directory"), exitCode := 2 }
  | some item =>
    if item.type = ItemType.file then
      if longFmt then { output := lsLongLine item, exitCode := 0 }
      else { output := item.name, exitCode := 0 }
    else
      match item.children with
      | none => { output := "", exitCode := 0 }
      | some cs =>
        let items0 := cs.map (·.2)
        let items1 := if showAll then items0
          else items0.filter fun it => !(jsStartsWith it.name ".")
        let items := if showAll = true ∧ resolvedPath ≠ "/" then
            synthDotRow "." :: synthDotRow ".." :: items1
          else items1
        if longFmt then { output := joinWith "\n" (items.map lsLongLine), exitCode := 0 }
        else { output := joinWith "  " (items.map Item.name), exitCode := 0 }

/-- `handleCd`: `args[0] || '/home/user'` (the empty string is falsy in JS). -/
def handleCd (args : List String) (currentDir : String) (fs : Item) : CommandResult :=
  let targetPath := match args with
    | [] => "/home/user"
    | p :: _ => if p = "" then "/home/user" else p
  let resolvedPath := resolvePath currentDir targetPath
  match getItemAtPath fs resolvedPath with
  | none =>
    { output := "", error := some ("bash: cd: " ++ targetPath ++ ": No such file or directory"), exitCode := 1 }
  | some item =>
    if item.type ≠ ItemType.directory then
      { output := "", error := some ("bash: cd: " ++ targetPath ++ ": Not a directory"), exitCode := 1 }
    else { output := "__CD__" ++ resolvedPath, exitCode := 0 }

/-- The per-file loop of `handleCat`, short-circuiting at the first missing
or directory argument. -/
def catLoop (d : String) (fs : Item) : List String → Except String (List String)
  | [] => .ok []
  | p :: rest =>
    match getItemAtPath fs (resolvePath d p) with
    | none => .error ("cat: " ++ p ++ ": No such file or directory")
    | some it =>
      if it.type ≠ ItemType.file then .error ("cat: " ++ p ++ ": Is a directory")
      else
        match catLoop d fs rest with
        | .error e => .error e
        | .ok rs => .ok ((it.content.getD "") :: rs)

/-- `handleCat`. -/
def handleCat (args : List String) (d : String) (fs : Item) : CommandResult :=
  if args = [] then { output := "", error := some "cat: missing file operand", exitCode := 1 }
  else
    match catLoop d fs args with
    | .error e => { output := "", error := some e, exitCode := 1 }
    | .ok rs => { output := joinWith "\n" rs, exitCode := 0 }

/-- The per-argument loop of `handleMkdir`, threading the mutated tree and
stopping at the first failure. -/
def mkdirLoop (d : String) : List String → Item → CommandResult × Item
  | [], fs => ({ output := "", exitCode := 0 }, fs)
  | p :: rest, fs =>
    match createDirectory fs (resolvePath d p) with
    | (true, fs1) => mkdirLoop d rest fs1
    | (false, fs1) =>
      ({ output := "", error := some ("mkdir: cannot create directory \x27" ++ p ++ "\x27: File exists or parent directory doesn\x27t exist"), exitCode := 1 }, fs1)

/-- `handleMkdir`. -/
def handleMkdir (args : List String) (d : String) (fs : Item) : CommandResult × Item :=
  if args = [] then ({ output := "", error := some "mkdir: missing operand", exitCode := 1 }, fs)
  else mkdirLoop d args fs

/-- The per-argument loop of `handleTouch`. -/
def touchLoop (d : String) : List String → Item → CommandResult × Item
  | [], fs => ({ output := "", exitCode := 0 }, fs)
  | p :: rest, fs =>
    match createFile fs (resolvePath d p) with
    | (true, fs1) => touchLoop d rest fs1
    | (false, fs1) =>
      ({ output := "", error := some ("touch: cannot touch \x27" ++ p ++ "\x27: No such file or directory"), exitCode := 1 }, fs1)

/-- `handleTouch`. -/
def handleTouch (args : List String) (d : String) (fs : Item) : CommandResult × Item :=
  if args = [] then ({ output := "", error := some "touch: missing file operand", exitCode := 1 }, fs)
  else touchLoop d args fs

/-- `handleHead`: the `-n` flag is consumed only when `args[0] === '-n'` and
`args[1]` is truthy; `parseInt(args[1]) || 10` maps both `NaN` and `0`
(falsy) to the default 10. -/
def handleHead (args : List String) (d : String) (fs : Item) : CommandResult :=
  let flag : Option (String × List String) :=
    match args with
    | a0 :: a1 :: rest => if a0 = "-n" ∧ a1 ≠ "" then some (a1, rest) else none
    | _ => none
  let lines : Int :=
    match flag with
    | some (a1, _) =>
      match jsParseInt a1 with
      | some k => if k = 0 then 10 else k
      | none => 10
    | none => 10
  let fileArgs := match flag with | some (_, rest) => rest | none => args
  match fileArgs with
  | [] => { output := "", error := some "head: missing file operand", exitCode := 1 }
  | filePath :: _ =>
    match getItemAtPath fs (resolvePath d filePath) with
    | none => { output := "", error := some ("head: " ++ filePath ++ ": No such file or directory"), exitCode := 1 }
    | some it =>
      if it.type ≠ ItemType.file then
        { output := "", error := some ("head: " ++ filePath ++ ": Is a directory"), exitCode := 1 }
      else
        let contentLines := jsSplit '\n' (it.content.getD "")
        { output := joinWith "\n" (jsSliceTo contentLines lines), exitCode := 0 }

/-- `handleTail`: same flag parsing as `handleHead`; takes
`contentLines.slice(-lines)`. -/
def handleTail (args : List String) (d : String) (fs : Item) : CommandResult :=
  let flag : Option (String × List String) :=
    match args with
    | a0 :: a1 :: rest => if a0 = "-n" ∧ a1 ≠ "" then some (a1, rest) else none
    | _ => none
  let lines : Int :=
    match flag with
    | some (a1, _) =>
      match jsParseInt a1 with
      | some k => if k = 0 then 10 else k
      | none => 10
    | none => 10
  let fileArgs := match flag with | some (_, rest) => rest | none => args
  match fileArgs with
  | [] => { output := "", error := some "tail: missing file operand", exitCode := 1 }
  | filePath :: _ =>
    match getItemAtPath fs (resolvePath d filePath) with
    | none => { output := "", error := some ("tail: " ++ filePath ++ ": No such file or directory"), exitCode := 1 }
    | some it =>
      if it.type ≠ ItemType.file then
        { output := "", error := some ("tail: " ++ filePath ++ ": Is a directory"), exitCode := 1 }
      else
        let contentLines := jsSplit '\n' (it.content.getD "")
        { output := joinWith "\n" (jsSliceFrom contentLines (-lines)), exitCode := 0 }

/-- Whether a character is matched by the JS regex class `\s` (the common
ASCII cases; Unicode spaces do not occur in this repository). -/
def isWs (c : Char) : Bool := c = ' ' || c = '\t' || c = '\n' || c = '\r'

/-- Model of `content.split(/\s+/)`: split on maximal whitespace runs. -/
def wsSplitChars : List Char → List (List Char)
  | [] => [[]]
  | c :: rest =>
    let r := wsSplitChars rest
    if isWs c then
      match rest with
      | c' :: _ => if isWs c' then r else [] :: r
      | [] => [] :: r
    else
      match r with
      | [] => [[]]
      | g :: gs => (c :: g) :: gs

/-- `handleWc`. -/
def handleWc (args : List String) (d : String) (fs : Item) : CommandResult :=
  match args with
  | [] => { output := "", error := some "wc: missing file operand", exitCode := 1 }
  | filePath :: _ =>
    match getItemAtPath fs (resolvePath d filePath) with
    | none => { output := "", error := some ("wc: " ++ filePath ++ ": No such file or directory"), exitCode := 1 }
    | some it =>
      if it.type ≠ ItemType.file then
        { output := "", error := some ("wc: " ++ filePath ++ ": Is a directory"), exitCode := 1 }
      else
        let content := it.content.getD ""
        let lines := (jsSplit '\n' content).length
        let words := (((wsSplitChars content.data).map String.mk).filter fun w => w.length > 0).length
        let chars := content.length
        { output := padStartNum lines 8 ++ " " ++ padStartNum words 7 ++ " " ++ padStartNum chars 7 ++ " " ++ filePath, exitCode := 0 }

/-- `handleGrep`: literal substring match per newline-split line. -/
def handleGrep (args : List String) (d : String) (fs : Item) : CommandResult :=
  match args with
  | pattern :: filePath :: _ =>
    match getItemAtPath fs (resolvePath d filePath) with
    | none => { output := "", error := some ("grep: " ++ filePath ++ ": No such file or directory"), exitCode := 1 }
    | some it =>
      if it.type ≠ ItemType.file then
        { output := "", error := some ("grep: " ++ filePath ++ ": Is a directory"), exitCode := 1 }
      else
        let lines := jsSplit '\n' (it.content.getD "")
        let matching := lines.filter fun line => jsIncludes line pattern
        { output := joinWith "\n" matching, exitCode := if matching.length > 0 then 0 else 1 }
  | _ => { output := "", error := some "grep: missing pattern or file operand", exitCode := 1 }

/-- Extension-based type guess of `handleFile`. -/
def fileTypeOf (it : Item) : String :=
  match ((jsSplit '.' it.name).getLast?).map String.toLower with
  | some "md" => "ASCII text (Markdown)"
  | some "sh" => "Bourne-Again shell script"
  | _ => "ASCII text"

/-- The per-path loop of `handleFile` (never fails the whole call). -/
def fileLoop (d : String) (fs : Item) : List String → List String
  | [] => []
  | p :: rest =>
    (match getItemAtPath fs (resolvePath d p) with
      | none => p ++ ": cannot open (No such file or directory)"
      | some it =>
        if it.type = ItemType.directory then p ++ ": directory"
        else p ++ ": " ++ fileTypeOf it) :: fileLoop d fs rest

/-- `handleFile`. -/
def handleFile (args : List String) (d : String) (fs : Item) : CommandResult :=
  if args = [] then { output := "", error := some "file: missing file operand", exitCode := 1 }
  else { output := joinWith "\n" (fileLoop d fs args), exitCode := 0 }

/-- The command list inside `handleWhich` (28 names; `history` is absent). -/
def whichCommands : List String :=
  ["ls", "cd", "pwd", "cat", "echo", "mkdir", "touch", "whoami", "date", "clear",
   "help", "uname", "which", "file", "head", "tail", "wc", "grep",
   "hello", "calc", "weather", "joke", "cowsay", "fortune", "matrix", "ascii", "color", "timer"]

/-- `handleWhich`. -/
def handleWhich (args : List String) : CommandResult :=
  match args with
  | [] => { output := "", error := some "which: missing argument", exitCode := 1 }
  | c :: _ =>
    if whichCommands.contains c then { output := "/bin/" ++ c, exitCode := 0 }
    else { output := "", error := some ("which: no " ++ c ++ " in (/bin:/usr/bin)"), exitCode := 1 }

/-- `handleUname`. -/
def handleUname (args : List String) : CommandResult :=
  if args.contains "-a" then
    { output := "Linux webterminal 5.15.0 #1 SMP Web Terminal Simulator x86_64 GNU/Linux", exitCode := 0 }
  else { output := "Linux", exitCode := 0 }

/-- The static usage text of `handleHelp`. -/
def helpText : String :=
  "Available commands:\n\nBASIC COMMANDS:\nls [-l] [-a] [path]    - List directory contents\ncd [path]              - Change directory\npwd                    - Print working directory\ncat <file>             - Display file contents\necho <text>            - Display text\nmkdir <dir>            - Create directory\ntouch <file>           - Create empty file\nwhoami                 - Display current user\ndate                   - Display current date and time\nclear                  - Clear terminal screen\n\nFILE OPERATIONS:\nfile <path>            - Determine file type\nhead [-n] <file>       - Display first lines of file\ntail [-n] <file>       - Display last lines of file\nwc <file>              - Word, line, character count\ngrep <pattern> <file>  - Search for pattern in file\n\nSYSTEM INFO:\nuname [-a]             - System information\nwhich <command>        - Locate command\nhistory                - Command history\n\nCUSTOM COMMANDS:\nhello [name]           - Greet someone\ncalc <expression>      - Simple calculator\nweather [city]         - Get weather info\njoke                   - Tell a random joke\ncowsay <message>       - ASCII cow says message\nfortune                - Random fortune cookie\nmatrix                 - Matrix-style animation\nascii <text>           - Convert text to ASCII art\ncolor <color>          - Change terminal color theme\ntimer <seconds>        - Start a countdown timer\n\nUse Tab for command completion and arrow keys for history navigation."

/-- `handleHelp`. -/
def handleHelp : CommandResult := { output := helpText, exitCode := 0 }

/-- The `date` branch returns the wall-clock `new Date().toString()`; the
text is not modelled, only the exit code.  Immaterial to every claim. -/
def dateOutput : String := ""

/-- `handleHello` draws a greeting uniformly at random from a fixed list;
the random choice is not modelled (output text immaterial to every claim),
the exit code is always 0. -/
def handleHello (_ : List String) : CommandResult := { output := "", exitCode := 0 }

/-- `handleCalc`: the `Function`-based evaluation of the sanitized
expression is not modelled; only the missing-argument error path matters
structurally, and no claim touches `calc`. -/
def handleCalc (args : List String) : CommandResult :=
  if args = [] then { output := "", error := some "calc: missing expression", exitCode := 1 }
  else { output := "", exitCode := 0 }

/-- `handleWeather` draws random weather data; not modelled, exit code 0. -/
def handleWeather (_ : List String) : CommandResult := { output := "", exitCode := 0 }

/-- `handleJoke` draws a random joke; not modelled, exit code 0. -/
def handleJoke : CommandResult := { output := "", exitCode := 0 }

/-- `handleCowsay`: deterministic ASCII-art output. -/
def handleCowsay (args : List String) : CommandResult :=
  let message := if args.length > 0 then joinWith " " args else "Hello from the terminal!"
  let border := String.mk (List.replicate (message.length + 2) '-')
  { output := "\n " ++ border ++ "\n< " ++ message ++ " >\n " ++ border
      ++ "\n        \\   ^__^\n         \\  (oo)\\_______\n            (__)\\       )\\/\\\n                ||----w |\n                ||     ||",
    exitCode := 0 }

/-- `handleFortune` draws a random fortune; not modelled, exit code 0. -/
def handleFortune : CommandResult := { output := "", exitCode := 0 }

/-- `handleMatrix` returns a static box-drawing banner; the art is not
reproduced (immaterial to every claim), exit code 0. -/
def handleMatrix : CommandResult := { output := "", exitCode := 0 }

/-- `handleAscii`: the glyph table (block-character art) is not reproduced;
the missing-argument error path is modelled, exit code 0 otherwise. -/
def handleAscii (args : List String) : CommandResult :=
  if args = [] then { output := "", error := some "ascii: missing text argument", exitCode := 1 }
  else { output := "", exitCode := 0 }

/-- The usage text `handleColor` prints when called without arguments. -/
def colorUsageText : String :=
  "Available color themes:\n- green (default)\n- blue\n- red\n- purple\n- orange\n- cyan\n\nUsage: color <theme-name>"

/-- The fixed palette of `handleColor`; the per-theme acknowledgement text
(emoji strings) is not reproduced. -/
def colorThemes : List String := ["green", "blue", "red", "purple", "orange", "cyan"]

/-- `handleColor`. -/
def handleColor (args : List String) : CommandResult :=
  match args with
  | [] => { output := colorUsageText, exitCode := 0 }
  | a :: _ =>
    let theme := a.toLower
    if colorThemes.contains theme then { output := "", exitCode := 0 }
    else { output := "", error := some ("color: unknown theme \x27" ++ theme ++ "\x27"), exitCode := 1 }

/-- `handleTimer`: validates its argument as a positive integer
(`parseInt` then `isNaN`/`<= 0` checks); the banner art is not reproduced. -/
def handleTimer (args : List String) : CommandResult :=
  match args with
  | [] => { output := "", error := some "timer: missing seconds argument", exitCode := 1 }
  | a :: _ =>
    match jsParseInt a with
    | none => { output := "", error := some "timer: invalid number of seconds", exitCode := 1 }
    | some s =>
      if s ≤ 0 then { output := "", error := some "timer: invalid number of seconds", exitCode := 1 }
      else { output := "", exitCode := 0 }

/-- The case labels of the `switch` in `executeCommand`, in source order. -/
def dispatchNames : List String :=
  ["ls", "cd", "pwd", "cat", "echo", "mkdir", "touch", "whoami", "date", "clear",
   "help", "uname", "history", "which", "file", "head", "tail", "wc", "grep",
   "hello", "calc", "weather", "joke", "cowsay", "fortune", "matrix", "ascii", "color", "timer"]

/-- `executeCommand` from `commands.ts`.  The `switch` on the command name
is an exact, case-sensitive equality chain; the mutated filesystem
(`mkdir`/`touch` write in place in the source) is returned as the second
component, all other branches leave it untouched. -/
def executeCommand (command : String) (args : List String) (currentDir : String) (fs : Item) :
    CommandResult × Item :=
  if command = "ls" then (handleLs args currentDir fs, fs)
  else if command = "cd" then (handleCd args currentDir fs, fs)
  else if command = "pwd" then ({ output := currentDir, exitCode := 0 }, fs)
  else if command = "cat" then (handleCat args currentDir fs, fs)
  else if command = "echo" then ({ output := joinWith " " args, exitCode := 0 }, fs)
  else if command = "mkdir" then handleMkdir args currentDir fs
  else if command = "touch" then handleTouch args currentDir fs
  else if command = "whoami" then ({ output := "user", exitCode := 0 }, fs)
  else if command = "date" then ({ output := dateOutput, exitCode := 0 }, fs)
  else if command = "clear" then ({ output := "__CLEAR__", exitCode := 0 }, fs)
  else if command = "help" then (handleHelp, fs)
  else if command = "uname" then (handleUname args, fs)
  else if command = "history" then ({ output := "Command history not available in this context", exitCode := 0 }, fs)
  else if command = "which" then (handleWhich args, fs)
  else if command = "file" then (handleFile args currentDir fs, fs)
  else if command = "head" then (handleHead args currentDir fs, fs)
  else if command = "tail" then (handleTail args currentDir fs, fs)
  else if command = "wc" then (handleWc args currentDir fs, fs)
  else if command = "grep" then (handleGrep args currentDir fs, fs)
  else if command = "hello" then (handleHello args, fs)
  else if command = "calc" then (handleCalc args, fs)
  else if command = "weather" then (handleWeather args, fs)
  else if command = "joke" then (handleJoke, fs)
  else if command = "cowsay" then (handleCowsay args, fs)
  else if command = "fortune" then (handleFortune, fs)
  else if command = "matrix" then (handleMatrix, fs)
  else if command = "ascii" then (handleAscii args, fs)
  else if command = "color" then (handleColor args, fs)
  else if command = "timer" then (handleTimer args, fs)
  else ({ output := "", error := some ("bash: " ++ command ++ ": command not found"), exitCode := 127 }, fs)

/-! ## Predicates and helper definitions used by the theorems -/

/-- Character-level image of `joinSlash`. -/
def charJoin : List (List Char) → List Char
  | [] => []
  | [g] => g
  | g :: g' :: rest => g ++ '/' :: charJoin (g' :: rest)

/-- A segment as produced by `split('/').filter(Boolean)`: non-empty and
slash-free. -/
def GoodSeg (s : String) : Prop := s.data ≠ [] ∧ '/' ∉ s.data

/-- A normalized absolute path: starts with `/`, and the part after that
leading root slash (empty exactly for `/` itself) splits on `/` into
segments none of which is empty, `.` or `..` — equivalently, no `.`/`..`
segments, no duplicate slashes, and no trailing slash except at the root. -/
def isNormAbsB (s : String) : Bool :=
  match s.data with
  | [] => false
  | c :: rest =>
    c = '/' && (rest.isEmpty ||
      (splitChars '/' rest).all fun g =>
        decide (g ≠ []) && decide (g ≠ ['.']) && decide (g ≠ ['.', '.']))

/-- Whether an optional lookup result is a directory node carrying a
`children` record (the guard of `createFile`/`createDirectory`). -/
def dirChildrenB : Option Item → Bool
  | some it => it.type = ItemType.directory && it.children.isSome
  | none => false

/-- Whether an optional lookup result is a file node. -/
def isFileB : Option Item → Bool
  | some it => it.type = ItemType.file
  | none => false

/-- Whether an optional lookup result is a directory node. -/
def isDirB : Option Item → Bool
  | some it => it.type = ItemType.directory
  | none => false

/-- `item.content || ''` of the node (if any) at `resolvePath d fp`,
split on newline: the line list `head`/`tail`/`grep` operate on. -/
def linesOfAt (fs : Item) (d fp : String) : List String :=
  jsSplit '\n' (((getItemAtPath fs (resolvePath d fp)).bind Item.content).getD "")

/-! ## Lemmas about the string-splitting models -/

theorem splitChars_ne_nil (sep : Char) (xs : List Char) : splitChars sep xs ≠ [] := by
  cases xs with
  | nil => simp [splitChars]
  | cons c rest =>
    simp only [splitChars]
    rcases h : splitChars sep rest with _ | ⟨g, gs⟩
    · simp
    · by_cases hc : c = sep <;> simp [hc]

theorem splitChars_append (sep : Char) (xs ys : List Char) :
    splitChars sep (xs ++ sep :: ys) = splitChars sep xs ++ splitChars sep ys := by
  induction xs with
  | nil =>
    simp only [List.nil_append, splitChars]
    rcases h : splitChars sep ys with _ | ⟨g, gs⟩
    · exact absurd h (splitChars_ne_nil sep ys)
    · simp
  | cons c rest ih =>
    simp only [List.cons_append, splitChars]
    simp only [List.append_eq]
    rw [ih]
    rcases h : splitChars sep rest with _ | ⟨g, gs⟩
    · exact absurd h (splitChars_ne_nil sep rest)
    · by_cases hc : c = sep <;> simp [hc]

theorem not_mem_of_mem_splitChars {sep : Char} {xs : List Char} {g : List Char}
    (hg : g ∈ splitChars sep xs) : sep ∉ g := by
  induction xs generalizing g with
  | nil => simp [splitChars] at hg; simp [hg]
  | cons c rest ih =>
    simp only [splitChars] at hg
    rcases h : splitChars sep rest with _ | ⟨g', gs⟩
    · exact absurd h (splitChars_ne_nil sep rest)
    · rw [h] at hg
      by_cases hc : c = sep
      · simp [hc] at hg
        rcases hg with hg | hg | hg
        · simp [hg]
        · exact ih (hg ▸ h ▸ List.mem_cons_self g' gs)
        · exact ih (h ▸ List.mem_cons_of_mem g' hg)
      · simp [hc] at hg
        rcases hg with hg | hg
        · subst hg
          intro hmem
          rcases List.mem_cons.mp hmem with h1 | h1
          · exact hc h1.symm
          · exact ih (h ▸ List.mem_cons_self g' gs) h1
        · exact ih (h ▸ List.mem_cons_of_mem g' hg)

theorem splitChars_of_not_mem {sep : Char} {xs : List Char} (h : sep ∉ xs) :
    splitChars sep xs = [xs] := by
  induction xs with
  | nil => simp [splitChars]
  | cons c rest ih =>
    simp only [List.mem_cons, not_or] at h
    simp only [splitChars, ih h.2]
    have hc : ¬(c = sep) := fun hh => h.1 hh.symm
    simp [hc]

theorem joinSlash_data (parts : List String) :
    (joinSlash parts).data = charJoin (parts.map String.data) := by
  induction parts with
  | nil => rfl
  | cons x rest ih =>
    cases rest with
    | nil => rfl
    | cons y rest' =>
      show (x ++ "/" ++ joinSlash (y :: rest')).data = _
      simp only [String.data_append, ih]
      simp [charJoin, List.append_assoc]

theorem splitChars_charJoin {gs : List (List Char)} (hne : gs ≠ [])
    (hgood : ∀ g ∈ gs, '/' ∉ g) :
    splitChars '/' (charJoin gs) = gs := by
  induction gs with
  | nil => exact absurd rfl hne
  | cons g rest ih =>
    cases rest with
    | nil =>
      simp only [charJoin]
      exact splitChars_of_not_mem (hgood g (List.mem_cons_self g []))
    | cons g' rest' =>
      simp only [charJoin, splitChars_append]
      rw [splitChars_of_not_mem (hgood g (List.mem_cons_self g _)),
        ih (by simp) (fun x hx => hgood x (List.mem_cons_of_mem g hx))]
      rfl

theorem charJoin_reverse_head {gs : List (List Char)} (hne : gs ≠ [])
    (hgood : ∀ g ∈ gs, g ≠ [] ∧ '/' ∉ g) :
    ∃ c rest, (charJoin gs).reverse = c :: rest ∧ c ≠ '/' := by
  induction gs with
  | nil => exact absurd rfl hne
  | cons g rest ih =>
    cases rest with
    | nil =>
      simp only [charJoin]
      obtain ⟨hg, hslash⟩ := hgood g (List.mem_cons_self g [])
      rcases h : g.reverse with _ | ⟨c, r⟩
      · exact absurd (List.reverse_eq_nil_iff.mp h) hg
      · refine ⟨c, r, rfl, fun hc => hslash ?_⟩
        rw [← List.mem_reverse, h, hc]
        exact List.mem_cons_self '/' r
    | cons g' rest' =>
      obtain ⟨c, r, hrev, hc⟩ := ih (by simp) (fun x hx => hgood x (List.mem_cons_of_mem g hx))
      refine ⟨c, r ++ '/' :: g.reverse, ?_, hc⟩
      simp only [charJoin, List.reverse_append, List.reverse_cons]
      rw [hrev]
      simp

theorem goodSeg_splitFilterB (d : String) : ∀ s ∈ splitFilterB d, GoodSeg s := by
  intro s hs
  simp only [splitFilterB, jsSplit, List.mem_filter, List.mem_map] at hs
  obtain ⟨⟨g, hg, hmk⟩, hne⟩ := hs
  subst hmk
  have hne' : String.mk g ≠ "" := of_decide_eq_true hne
  constructor
  · intro hdata
    exact hne' (String.ext hdata)
  · exact not_mem_of_mem_splitChars hg

theorem string_ne_empty_of_data_ne_nil {s : String} (h : s.data ≠ []) : s ≠ "" := by
  intro hs
  exact h (by simp [hs])

/-- Resolving an absolute path that does not end in `/` (or is exactly `/`)
is the identity: this is the fixed-point shape every resolver output has. -/
theorem resolvePath_abs_fixed (d r : String) (h1 : startsSlash r = true)
    (h2 : r = "/" ∨ endsSlash r = false) : resolvePath d r = r := by
  rw [resolvePath, if_pos h1]
  rcases h2 with h2 | h2
  · simp [h2]
  · have hr : r ≠ "/" := by
      intro hr
      rw [hr] at h2
      exact absurd h2 (by decide)
    rw [if_neg hr, stripTrail]
    split
    · rename_i rest heq
      rw [endsSlash, heq] at h2
      simp at h2
    · rfl

theorem startsSlash_slash_append (t : String) : startsSlash ("/" ++ t) = true := by
  have : ("/" ++ t).data = '/' :: t.data := by
    rw [String.data_append]; rfl
  rw [startsSlash, this]
  rfl

theorem endsSlash_eq_false_of_reverse {r : String} {c : Char} {rest : List Char}
    (hrev : r.data.reverse = c :: rest) (hc : c ≠ '/') : endsSlash r = false := by
  rw [endsSlash, hrev]
  split
  · rename_i x heq
    injection heq with h1 _
    exact absurd h1 hc
  · rfl

/-- The result `'/' + parts.join('/')` over good segments is a resolver
fixed point. -/
theorem resolvePath_join_fixed (d : String) {segs : List String} (hne : segs ≠ [])
    (hgood : ∀ s ∈ segs, GoodSeg s) :
    resolvePath d ("/" ++ joinSlash segs) = "/" ++ joinSlash segs := by
  apply resolvePath_abs_fixed
  · exact startsSlash_slash_append _
  · right
    obtain ⟨c, rest, hrev, hc⟩ := @charJoin_reverse_head
      (segs.map String.data) (by simpa using hne)
      (by
        intro g hg
        simp only [List.mem_map] at hg
        obtain ⟨s, hs, rfl⟩ := hg
        exact (hgood s hs))
    apply @endsSlash_eq_false_of_reverse _ c (rest ++ ['/'])
    · rw [String.data_append, List.reverse_append]
      have h1 : ("/" : String).data.reverse = ['/'] := rfl
      rw [joinSlash_data, hrev]
      simp [h1]
    · exact hc

theorem resolvePath_root_fixed (d : String) : resolvePath d "/" = "/" := by
  rw [resolvePath]
  simp [startsSlash]

/-- The stack discipline of relative resolution preserves any property that
holds of the base segments and of every pushed segment. -/
theorem foldl_resolveStep_pres (P : String → Prop) :
    ∀ (parts base : List String), (∀ s ∈ base, P s) →
      (∀ s ∈ parts, s ≠ ".." → s ≠ "." → s ≠ "" → P s) →
      ∀ s ∈ parts.foldl resolveStep base, P s := by
  intro parts
  induction parts with
  | nil => intro base hb _ s hs; exact hb s hs
  | cons part rest ih =>
    intro base hb hp s hs
    rw [List.foldl_cons] at hs
    refine ih (resolveStep base part) ?_ (fun x hx => hp x (List.mem_cons_of_mem _ hx)) s hs
    intro x hx
    rw [resolveStep] at hx
    split at hx
    · exact hb x (List.mem_of_mem_dropLast hx)
    · split at hx
      · rename_i hdd hcond
        rcases List.mem_append.mp hx with h | h
        · exact hb x h
        · rw [List.mem_singleton] at h
          subst h
          exact hp x (List.mem_cons_self _ _) hdd hcond.1 hcond.2
      · exact hb x hx

theorem mem_jsSplit_no_slash {p s : String} (hs : s ∈ jsSplit '/' p) : '/' ∉ s.data := by
  simp only [jsSplit, List.mem_map] at hs
  obtain ⟨g, hg, rfl⟩ := hs
  exact not_mem_of_mem_splitChars hg

theorem data_eq_nil_of_reverse_nil {p : String} (h : p.data.reverse = []) : p.data = [] := by
  simpa using congrArg List.reverse h

/-- Idempotence of the resolver on absolute inputs not ending in `//`. -/
theorem resolvePath_idem_abs (d p : String) (hs : startsSlash p = true)
    (h2s : ends2Slash p = false) :
    resolvePath d (resolvePath d p) = resolvePath d p := by
  by_cases hp : p = "/"
  · rw [hp, resolvePath_root_fixed, resolvePath_root_fixed]
  · have hr : resolvePath d p = stripTrail p := by
      rw [resolvePath, if_pos hs, if_neg hp]
    rw [hr]
    rcases hrev : p.data.reverse with _ | ⟨c, rest⟩
    · rw [startsSlash, data_eq_nil_of_reverse_nil hrev] at hs
      cases hs
    · by_cases hc : c = '/'
      · subst hc
        rcases rest with _ | ⟨c', rest'⟩
        · -- p.data = ['/'] contradicts p ≠ "/"
          have hpd : p.data = ['/'] := by
            simpa using congrArg List.reverse hrev
          exact absurd (String.ext (hpd.trans rfl)) hp
        · have hc' : c' ≠ '/' := by
            intro he
            rw [ends2Slash, hrev, he] at h2s
            simp at h2s
          have hst : stripTrail p = String.mk ((c' :: rest').reverse) := by
            rw [stripTrail, hrev]
            rfl
          have hpd : p.data = rest'.reverse ++ [c', '/'] := by
            have h0 := congrArg List.reverse hrev
            simpa using h0
          have hne' : rest' ≠ [] := by
            intro h0
            subst h0
            rw [startsSlash, hpd] at hs
            simp at hs
            exact hc' hs
          obtain ⟨h0, t0, hrt⟩ : ∃ h0 t0, rest'.reverse = h0 :: t0 := by
            rcases hrr : rest'.reverse with _ | ⟨a, b⟩
            · exact absurd (by simpa using congrArg List.reverse hrr) hne'
            · exact ⟨a, b, rfl⟩
          have hrrev : (String.mk ((c' :: rest').reverse)).data.reverse = c' :: rest' := by
            simp
          have hstart : startsSlash (String.mk ((c' :: rest').reverse)) = true := by
            rw [startsSlash, hpd, hrt] at hs
            simp at hs
            have hrd : (String.mk ((c' :: rest').reverse)).data = h0 :: (t0 ++ [c']) := by
              simp [hrt]
            rw [startsSlash, hrd]
            simpa using hs
          rw [hst]
          exact resolvePath_abs_fixed d _ hstart
            (Or.inr (endsSlash_eq_false_of_reverse hrrev hc'))
      · have hst : stripTrail p = p := by
          rw [stripTrail]
          split
          · rename_i r' heq
            rw [hrev] at heq
            injection heq with e1 _
            exact absurd e1 hc
          · rfl
        rw [hst]
        exact resolvePath_abs_fixed d p hs
          (Or.inr (endsSlash_eq_false_of_reverse hrev hc))

/-- The shape of a relative resolution through the segment stack. -/
theorem resolvePath_rel_eq (d p : String) (hs : startsSlash p = false)
    (hdot : p ≠ ".") (hdd : p ≠ "..") :
    resolvePath d p =
      (if (jsSplit '/' p).foldl resolveStep (if d = "/" then [] else splitFilterB d) = []
       then "/"
       else "/" ++ joinSlash ((jsSplit '/' p).foldl resolveStep
          (if d = "/" then [] else splitFilterB d))) := by
  rw [resolvePath, if_neg (by simp [hs]), if_neg hdot, if_neg hdd]

theorem goodSeg_final (d p : String) :
    ∀ s ∈ (jsSplit '/' p).foldl resolveStep (if d = "/" then [] else splitFilterB d),
      GoodSeg s := by
  apply foldl_resolveStep_pres
  · intro s hsm
    split at hsm
    · cases hsm
    · exact goodSeg_splitFilterB d s hsm
  · intro s hsm _ _ hne
    refine ⟨fun h0 => hne (String.ext (h0.trans rfl)), mem_jsSplit_no_slash hsm⟩

theorem splitChars_cons_sep (sep : Char) (xs : List Char) :
    splitChars sep (sep :: xs) = [] :: splitChars sep xs := by
  simp only [splitChars]
  rcases h : splitChars sep xs with _ | ⟨g, gs⟩
  · exact absurd h (splitChars_ne_nil sep xs)
  · simp

theorem isNormAbsB_of_join {segs : List String}
    (hgood : ∀ s ∈ segs, GoodSeg s ∧ s ≠ "." ∧ s ≠ "..") :
    isNormAbsB (if segs = [] then "/" else "/" ++ joinSlash segs) = true := by
  by_cases he : segs = []
  · rw [if_pos he]; rfl
  · rw [if_neg he]
    have hd : ("/" ++ joinSlash segs).data = '/' :: charJoin (segs.map String.data) := by
      rw [String.data_append, joinSlash_data]
      rfl
    have hsplit : splitChars '/' (charJoin (segs.map String.data)) = segs.map String.data :=
      splitChars_charJoin (by simpa using he) (by
        intro g hg
        simp only [List.mem_map] at hg
        obtain ⟨s, hs, rfl⟩ := hg
        exact (hgood s hs).1.2)
    rw [isNormAbsB, hd]
    simp only [hsplit, Bool.and_eq_true, Bool.or_eq_true, List.all_eq_true, decide_eq_true_eq]
    refine ⟨trivial, Or.inr ?_⟩
    intro g hg
    simp only [List.mem_map] at hg
    obtain ⟨s, hsm, rfl⟩ := hg
    obtain ⟨⟨hne, _⟩, hdot, hdd⟩ := hgood s hsm
    refine ⟨⟨hne, fun h0 => hdot (String.ext (h0.trans rfl))⟩,
      fun h0 => hdd (String.ext (h0.trans rfl))⟩

theorem normSeg_of_isNormAbsB {d : String} (hd : isNormAbsB d = true) :
    ∀ s ∈ splitFilterB d, GoodSeg s ∧ s ≠ "." ∧ s ≠ ".." := by
  intro s hs
  rw [isNormAbsB] at hd
  rcases hdd : d.data with _ | ⟨c, rest⟩
  · rw [hdd] at hd; cases hd
  · rw [hdd] at hd
    rw [Bool.and_eq_true] at hd
    obtain ⟨hc, hrest⟩ := hd
    have hc' : c = '/' := of_decide_eq_true hc
    subst hc'
    have hsplit : splitFilterB d = (List.map String.mk (splitChars '/' rest)).filter (· ≠ "") := by
      rw [splitFilterB, jsSplit, hdd, splitChars_cons_sep]
      simp
    rw [hsplit, List.mem_filter, List.mem_map] at hs
    obtain ⟨⟨g, hg, rfl⟩, hne⟩ := hs
    rcases Bool.or_eq_true .. |>.mp hrest with hre | hall
    · have hrnil : rest = [] := by simpa using hre
      subst hrnil
      simp only [splitChars, List.mem_singleton] at hg
      subst hg
      simp at hne
    · rw [List.all_eq_true] at hall
      have h3 := hall g hg
      simp only [Bool.and_eq_true, decide_eq_true_eq] at h3
      obtain ⟨⟨h31, h32⟩, h33⟩ := h3
      exact ⟨⟨h31, not_mem_of_mem_splitChars hg⟩,
        fun he' => h32 (congrArg String.data he'),
        fun he' => h33 (congrArg String.data he')⟩

/-! ## Lemmas about the store: lookup, insertion, path splitting -/

theorem recordGet_recordSet_self (cs : List (String × Item)) (k : String) (v : Item) :
    recordGet (recordSet cs k v) k = some v := by
  induction cs with
  | nil => simp [recordSet, recordGet, List.find?]
  | cons e rest ih =>
    obtain ⟨k', v'⟩ := e
    rw [recordSet]
    by_cases hk : k' = k
    · rw [if_pos hk]
      simp [recordGet, List.find?]
    · rw [if_neg hk]
      rw [recordGet, List.find?_cons]
      simp only [hk, decide_eq_false, reduceCtorEq]
      exact ih

theorem walkSegs_setChildAt (segs : List String) :
    ∀ (cur par : Item) (cs : List (String × Item)) (k : String) (v : Item),
      walkSegs segs cur = some par → par.children = some cs →
      walkSegs (segs ++ [k]) (setChildAt cur segs k v) = some v := by
  induction segs with
  | nil =>
    intro cur par cs k v hw hch
    have hcur : cur = par := by
      rw [walkSegs] at hw
      exact Option.some.inj hw
    subst hcur
    rw [List.nil_append, setChildAt, hch]
    simp only [walkSegs, Item.children_withChildren, recordGet_recordSet_self]
  | cons s rest ih =>
    intro cur par cs k v hw hch
    rcases hcur : cur.children with _ | cs₀
    · simp only [walkSegs, hcur] at hw; cases hw
    · simp only [walkSegs, hcur] at hw
      rcases hget : recordGet cs₀ s with _ | c
      · simp only [hget] at hw; cases hw
      · simp only [hget] at hw
        rw [List.cons_append]
        simp only [setChildAt, hcur, hget, walkSegs, Item.children_withChildren,
          recordGet_recordSet_self]
        exact ih c par cs k v hw hch

theorem getItemAtPath_eq_walk (fs : Item) (q : String) :
    getItemAtPath fs q = walkSegs (splitFilterB q) fs := by
  rw [getItemAtPath]
  by_cases hq : q = "/"
  · rw [if_pos hq, hq]
    rfl
  · rw [if_neg hq]

theorem not_mem_of_lastSplit_none : ∀ {xs : List Char}, lastSplit xs = none → '/' ∉ xs := by
  intro xs
  induction xs with
  | nil => intro _ hmem; cases hmem
  | cons c rest ih =>
    intro h hmem
    rw [lastSplit] at h
    rcases hr : lastSplit rest with _ | pr
    · rw [hr] at h
      by_cases hc : c = '/'
      · rw [if_pos hc] at h; cases h
      · rcases List.mem_cons.mp hmem with h1 | h1
        · exact hc h1.symm
        · exact ih hr h1
    · rw [hr] at h; cases h

theorem lastSplit_spec : ∀ {xs a b : List Char}, lastSplit xs = some (a, b) →
    xs = a ++ '/' :: b ∧ '/' ∉ b := by
  intro xs
  induction xs with
  | nil => intro a b h; cases h
  | cons c rest ih =>
    intro a b h
    rw [lastSplit] at h
    rcases hr : lastSplit rest with _ | ⟨a', b'⟩
    · rw [hr] at h
      by_cases hc : c = '/'
      · rw [if_pos hc] at h
        have h' : (([] : List Char), rest) = (a, b) := Option.some.inj h
        cases h'
        subst hc
        exact ⟨rfl, not_mem_of_lastSplit_none hr⟩
      · rw [if_neg hc] at h; cases h
    · rw [hr] at h
      have h' : ((c :: a'), b') = (a, b) := Option.some.inj h
      cases h'
      obtain ⟨h1, h2⟩ := ih hr
      exact ⟨by rw [List.cons_append, ← h1], h2⟩

theorem lastSplit_none_of_not_mem : ∀ {xs : List Char}, '/' ∉ xs → lastSplit xs = none := by
  intro xs
  induction xs with
  | nil => intro _; rfl
  | cons c rest ih =>
    intro h
    simp only [List.mem_cons, not_or] at h
    rw [lastSplit, ih h.2]
    rw [if_neg (fun hc => h.1 hc.symm)]

theorem lastSplit_append (a b : List Char) (hb : '/' ∉ b) :
    lastSplit (a ++ '/' :: b) = some (a, b) := by
  induction a with
  | nil =>
    rw [List.nil_append, lastSplit, lastSplit_none_of_not_mem hb]
    simp
  | cons c a' ih =>
    rw [List.cons_append, lastSplit, ih]

theorem mk_data_eq (s : String) : String.mk s.data = s := String.ext rfl

theorem splitFilterB_root : splitFilterB "/" = [] := rfl

theorem splitFilterB_parent_leaf {p : String} (h : leafOf p ≠ "") :
    splitFilterB p = splitFilterB (parentOf p) ++ [leafOf p] := by
  rcases hls : lastSplit p.data with _ | ⟨a, b⟩
  · have hleaf : leafOf p = p := by rw [leafOf, hls]
    have hpar : parentOf p = "/" := by rw [parentOf, hls]
    have hnos : '/' ∉ p.data := not_mem_of_lastSplit_none hls
    have hpne : p ≠ "" := fun h0 => h (hleaf.trans h0)
    rw [hleaf, hpar, splitFilterB_root, List.nil_append]
    rw [splitFilterB, jsSplit, splitChars_of_not_mem hnos]
    simp [mk_data_eq, hpne]
  · obtain ⟨hxs, hnob⟩ := lastSplit_spec hls
    have hleaf : leafOf p = String.mk b := by rw [leafOf, hls]
    have hpar : parentOf p = if a = [] then "/" else String.mk a := by rw [parentOf, hls]
    have hbne : b ≠ [] := by
      intro h0
      subst h0
      exact h (hleaf.trans (String.ext rfl))
    have hmkb : String.mk b ≠ "" := fun h0 => hbne (congrArg String.data h0)
    rw [hleaf, hpar]
    rw [splitFilterB, jsSplit, hxs, splitChars_append, splitChars_of_not_mem hnob]
    by_cases ha : a = []
    · rw [if_pos ha]
      subst ha
      rw [splitFilterB_root, List.nil_append]
      simp [splitChars, hmkb]
    · rw [if_neg ha]
      rw [splitFilterB, jsSplit]
      simp [List.filter_append, hmkb]

theorem parentOf_leafOf_append {p name : String}
    (hslash : '/' ∉ name.data) (hp : p ≠ "") :
    parentOf (p ++ "/" ++ name) = p ∧ leafOf (p ++ "/" ++ name) = name := by
  have hdata : (p ++ "/" ++ name).data = p.data ++ '/' :: name.data := by
    rw [String.data_append, String.data_append]
    simp
  constructor
  · simp only [parentOf, hdata, lastSplit_append _ _ hslash]
    rw [if_neg (fun h0 => hp (String.ext ((h0 : p.data = []).trans rfl)))]
  · simp only [leafOf, hdata, lastSplit_append _ _ hslash]

theorem createFile_eq (fs : Item) (p c : String)
    (hdir : dirChildrenB (getItemAtPath fs (parentOf p)) = true) :
    createFile fs p c =
      (true, setChildAt fs (splitFilterB (parentOf p)) (leafOf p)
        (mkFileNode (leafOf p) c)) := by
  rcases hl : getItemAtPath fs (parentOf p) with _ | par
  · rw [hl] at hdir; cases hdir
  · rw [hl, dirChildrenB, Bool.and_eq_true, decide_eq_true_eq] at hdir
    simp only [createFile, hl]
    rw [if_pos ⟨hdir.1, hdir.2⟩]

theorem createDirectory_eq (fs : Item) (p : String)
    (hdir : dirChildrenB (getItemAtPath fs (parentOf p)) = true) :
    createDirectory fs p =
      (true, setChildAt fs (splitFilterB (parentOf p)) (leafOf p)
        (mkDirNode (leafOf p))) := by
  rcases hl : getItemAtPath fs (parentOf p) with _ | par
  · rw [hl] at hdir; cases hdir
  · rw [hl, dirChildrenB, Bool.and_eq_true, decide_eq_true_eq] at hdir
    simp only [createDirectory, hl]
    rw [if_pos ⟨hdir.1, hdir.2⟩]

theorem dirChildrenB_elim {o : Option Item} (h : dirChildrenB o = true) :
    ∃ par cs, o = some par ∧ par.type = ItemType.directory ∧ par.children = some cs := by
  rcases o with _ | par
  · cases h
  · rw [dirChildrenB, Bool.and_eq_true, decide_eq_true_eq] at h
    obtain ⟨cs, hcs⟩ := Option.isSome_iff_exists.mp h.2
    exact ⟨par, cs, rfl, h.1, hcs⟩

theorem setChildAt_lookup (fs : Item) (q : String) (child : Item)
    (hdir : dirChildrenB (getItemAtPath fs (parentOf q)) = true)
    (hleaf : leafOf q ≠ "") :
    getItemAtPath (setChildAt fs (splitFilterB (parentOf q)) (leafOf q) child) q =
      some child := by
  obtain ⟨par, cs, hl, htype, hch⟩ := dirChildrenB_elim hdir
  rw [getItemAtPath_eq_walk, splitFilterB_parent_leaf hleaf]
  exact walkSegs_setChildAt _ fs par cs (leafOf q) child
    ((getItemAtPath_eq_walk fs (parentOf q)) ▸ hl) hch

theorem isFileB_elim {o : Option Item} (h : isFileB o = true) :
    ∃ it, o = some it ∧ it.type = ItemType.file := by
  rcases o with _ | it
  · cases h
  · rw [isFileB] at h
    exact ⟨it, rfl, of_decide_eq_true h⟩

theorem isDirB_elim {o : Option Item} (h : isDirB o = true) :
    ∃ it, o = some it ∧ it.type = ItemType.directory := by
  rcases o with _ | it
  · cases h
  · rw [isDirB] at h
    exact ⟨it, rfl, of_decide_eq_true h⟩

theorem jsSliceTo_ofNat (l : List String) (n : Nat) : jsSliceTo l (n : Int) = l.take n := by
  rw [jsSliceTo, if_neg (by omega : ¬((n : Int) < 0))]
  congr 1

theorem jsSliceFrom_negOfNat (l : List String) (n : Nat) (h : 0 < n) :
    jsSliceFrom l (-(n : Int)) = l.drop (l.length - n) := by
  rw [jsSliceFrom, if_pos (by omega : -(n : Int) < 0)]
  congr 1
  omega

theorem createFile_fail (fs : Item) (p c : String)
    (h : dirChildrenB (getItemAtPath fs (parentOf p)) = false) :
    createFile fs p c = (false, fs) := by
  rcases hl : getItemAtPath fs (parentOf p) with _ | par
  · simp only [createFile, hl]
  · rw [hl] at h
    simp only [createFile, hl]
    rw [if_neg]
    intro hcond
    have hb : dirChildrenB (some par) = true := by
      rw [dirChildrenB]
      simp [hcond.1, hcond.2]
    rw [hb] at h
    cases h

theorem createDirectory_fail (fs : Item) (p : String)
    (h : dirChildrenB (getItemAtPath fs (parentOf p)) = false) :
    createDirectory fs p = (false, fs) := by
  rcases hl : getItemAtPath fs (parentOf p) with _ | par
  · simp only [createDirectory, hl]
  · rw [hl] at h
    simp only [createDirectory, hl]
    rw [if_neg]
    intro hcond
    have hb : dirChildrenB (some par) = true := by
      rw [dirChildrenB]
      simp [hcond.1, hcond.2]
    rw [hb] at h
    cases h

/-! ## Claims -/

/-- C3 (counterexample): the claim `resolve(d, resolve(d, p)) == resolve(d, p)`
for *every* `d` and `p` fails at `d = "/"`, `p = "/a//"`:
`resolve("/", "/a//") = "/a/"` (the regex strips one trailing slash only),
and resolving `"/a/"` again yields `"/a"`. -/
theorem spec_c3_cex :
    resolvePath "/" (resolvePath "/" "/a//") ≠ resolvePath "/" "/a//" := by decide

/-- C3 (amended): path resolution is idempotent —
`resolve(d, resolve(d, p)) == resolve(d, p)` — for every starting directory
`d` and token `p`, provided (i) `p` does not both start with `/` and end with
two consecutive slashes (the counterexample shape: rule 1 strips only one
trailing slash), and (ii) when `p` is exactly `"."` (whose resolution returns
`d` verbatim) the directory `d` itself has resolved form, i.e. is `/` or
starts with `/` without a trailing slash. -/
theorem spec_c3 (d p : String)
    (hdot : p = "." → d = "/" ∨ (startsSlash d = true ∧ endsSlash d = false))
    (habs : ¬(startsSlash p = true ∧ ends2Slash p = true)) :
    resolvePath d (resolvePath d p) = resolvePath d p := by
  by_cases hs : startsSlash p = true
  · have h2s : ends2Slash p = false := by
      rcases Bool.eq_false_or_eq_true (ends2Slash p) with h | h
      · exact absurd ⟨hs, h⟩ habs
      · exact h
    exact resolvePath_idem_abs d p hs h2s
  · have hs' : startsSlash p = false := by
      rcases Bool.eq_false_or_eq_true (startsSlash p) with h | h
      · exact absurd h hs
      · exact h
    by_cases hdot' : p = "."
    · rw [hdot']
      have h1 : resolvePath d "." = d := rfl
      rw [h1]
      rcases hdot hdot' with h | ⟨ha, hb⟩
      · rw [h]
        exact resolvePath_root_fixed d
      · exact resolvePath_abs_fixed d d ha (Or.inr hb)
    · by_cases hdd : p = ".."
      · rw [hdd]
        have h1 : resolvePath d ".." =
            if (splitFilterB d).dropLast = [] then "/"
            else "/" ++ joinSlash ((splitFilterB d).dropLast) := rfl
        rw [h1]
        by_cases he : (splitFilterB d).dropLast = []
        · rw [if_pos he]
          exact resolvePath_root_fixed d
        · rw [if_neg he]
          exact resolvePath_join_fixed d he
            (fun s hsm => goodSeg_splitFilterB d s (List.mem_of_mem_dropLast hsm))
      · rw [resolvePath_rel_eq d p hs' hdot' hdd]
        by_cases he : (jsSplit '/' p).foldl resolveStep
            (if d = "/" then [] else splitFilterB d) = []
        · rw [if_pos he]
          exact resolvePath_root_fixed d
        · rw [if_neg he]
          exact resolvePath_join_fixed d he (fun s hsm => goodSeg_final d p s hsm)

/-- C3 (witness): concrete instance of the amended idempotence at
`d = "/home/user"`, `p = "../../etc//x"`. -/
theorem spec_c3_w :
    (("../../etc//x" : String) = "." →
      "/home/user" = "/" ∨ (startsSlash "/home/user" = true ∧ endsSlash "/home/user" = false))
    ∧ ¬(startsSlash "../../etc//x" = true ∧ ends2Slash "../../etc//x" = true)
    ∧ resolvePath "/home/user" (resolvePath "/home/user" "../../etc//x") =
        resolvePath "/home/user" "../../etc//x" :=
  ⟨by decide, by decide,
    spec_c3 "/home/user" "../../etc//x" (by decide) (by decide)⟩

/-- C6: the three pinned resolver facts — `resolve("/home/user", "..") = "/home"`,
`resolve("/", "..") = "/"` (dropping the last segment is a no-op at root),
and `resolve("/home/user", "../../etc") = "/etc"`. -/
theorem spec_c6 :
    resolvePath "/home/user" ".." = "/home"
    ∧ resolvePath "/" ".." = "/"
    ∧ resolvePath "/home/user" "../../etc" = "/etc" := by
  refine ⟨rfl, rfl, rfl⟩

/-- C10: for every current directory `d` that is a normalized absolute path
and every path token `p` not starting with `/`, `resolve(d, p)` is again a
normalized absolute path: it starts with `/` and — reading "splitting it on
`/`" for the part after the leading root slash, as the claim's own
parenthetical ("never ends with `/` unless it is exactly `/`") intends —
yields no `.` segment, no `..` segment and no empty segment. -/
theorem spec_c10 (d p : String) (hd : isNormAbsB d = true)
    (hp : startsSlash p = false) :
    isNormAbsB (resolvePath d p) = true := by
  by_cases hdot : p = "."
  · rw [hdot, show resolvePath d "." = d from rfl]
    exact hd
  · by_cases hdd : p = ".."
    · rw [hdd, show resolvePath d ".." =
          (if (splitFilterB d).dropLast = [] then "/"
           else "/" ++ joinSlash ((splitFilterB d).dropLast)) from rfl]
      exact isNormAbsB_of_join
        (fun s hs => normSeg_of_isNormAbsB hd s (List.mem_of_mem_dropLast hs))
    · rw [resolvePath_rel_eq d p hp hdot hdd]
      apply isNormAbsB_of_join
      apply foldl_resolveStep_pres
      · intro s hsm
        split at hsm
        · cases hsm
        · exact normSeg_of_isNormAbsB hd s hsm
      · intro s hsm hdd' hdot' hne
        exact ⟨⟨fun h0 => hne (String.ext (h0.trans rfl)),
          mem_jsSplit_no_slash hsm⟩, hdot', hdd'⟩

/-- C10 (witness): concrete instance at `d = "/home/user"`,
`p = ".././/docs/../etc"`. -/
theorem spec_c10_w :
    isNormAbsB "/home/user" = true
    ∧ startsSlash ".././/docs/../etc" = false
    ∧ isNormAbsB (resolvePath "/home/user" ".././/docs/../etc") = true :=
  ⟨by decide, by decide, spec_c10 "/home/user" ".././/docs/../etc" (by decide) (by decide)⟩

/-- C4: `createFile` with an absolute path whose parent path does not look
up to an existing directory node returns failure with the tree unchanged
(the source returns `false` before any mutation); and after
`createDirectory` succeeds for a path (with a proper leaf name), a
subsequent `createFile` of a leaf under that new directory succeeds. -/
theorem spec_c4 :
    (∀ (fs : Item) (p c : String), startsSlash p = true →
      dirChildrenB (getItemAtPath fs (parentOf p)) = false →
      createFile fs p c = (false, fs))
    ∧ (∀ (fs fs' : Item) (p name c : String),
        createDirectory fs p = (true, fs') →
        leafOf p ≠ "" → name ≠ "" → '/' ∉ name.data →
        (createFile fs' (p ++ "/" ++ name) c).1 = true) := by
  constructor
  · intro fs p c _ h
    exact createFile_fail fs p c h
  · intro fs fs' p name c hcd hleafp hname hslash
    have hdir : dirChildrenB (getItemAtPath fs (parentOf p)) = true := by
      rcases Bool.eq_false_or_eq_true (dirChildrenB (getItemAtPath fs (parentOf p))) with hb | hb
      · exact hb
      · rw [createDirectory_fail fs p hb] at hcd
        simp at hcd
    have hfs' : fs' = setChildAt fs (splitFilterB (parentOf p)) (leafOf p)
        (mkDirNode (leafOf p)) := by
      rw [createDirectory_eq fs p hdir] at hcd
      injection hcd with _ h2
      exact h2.symm
    have hp_ne : p ≠ "" := by
      intro h0
      apply hleafp
      rw [h0]
      rfl
    obtain ⟨hparq, _⟩ := @parentOf_leafOf_append p name hslash hp_ne
    have hlook : getItemAtPath fs' p = some (mkDirNode (leafOf p)) := by
      rw [hfs']
      exact setChildAt_lookup fs p (mkDirNode (leafOf p)) hdir hleafp
    have hdirq : dirChildrenB (getItemAtPath fs' (parentOf (p ++ "/" ++ name))) = true := by
      rw [hparq, hlook]
      rfl
    rw [createFile_eq fs' _ c hdirq]

/-- C4 (witness): at the initial tree, `createFile` under the missing parent
`/nonexistent` fails leaving the tree unchanged, and `createFile` under a
freshly created `/home/user/newdir` succeeds. -/
theorem spec_c4_w :
    createFile createInitialFileSystem "/nonexistent/x.txt" "hi" =
      (false, createInitialFileSystem)
    ∧ (createFile ((createDirectory createInitialFileSystem "/home/user/newdir").2)
        ("/home/user/newdir" ++ "/" ++ "data.txt") "hello").1 = true :=
  ⟨spec_c4.1 createInitialFileSystem "/nonexistent/x.txt" "hi" (by decide) (by decide),
   spec_c4.2 createInitialFileSystem _ "/home/user/newdir" "data.txt" "hello" rfl
     (by decide) (by decide) (by decide)⟩

/-- C5: round-trip of create and lookup — after
`createFile(root, "/home/user/x.txt", "hi")` succeeds on the initial
filesystem, the lookup at `/home/user/x.txt` returns a file node whose
`content` is `"hi"` and whose `size` is 2 (the length of the content). -/
theorem spec_c5 :
    (createFile createInitialFileSystem "/home/user/x.txt" "hi").1 = true
    ∧ ((getItemAtPath (createFile createInitialFileSystem "/home/user/x.txt" "hi").2
        "/home/user/x.txt").map Item.type) = some ItemType.file
    ∧ ((getItemAtPath (createFile createInitialFileSystem "/home/user/x.txt" "hi").2
        "/home/user/x.txt").map Item.content) = some (some "hi")
    ∧ ((getItemAtPath (createFile createInitialFileSystem "/home/user/x.txt" "hi").2
        "/home/user/x.txt").map Item.size) = some 2 :=
  ⟨rfl, rfl, rfl, rfl⟩

/-- C9: for every path `p` whose (resolved) parent looks up to a directory
node, `touch p` and `mkdir p` exit with code 0 and *replace* whatever node
sat at the resolved path: afterwards the lookup returns exactly a fresh file
node with empty content (for `touch`) resp. a fresh directory node with an
empty `children` map (for `mkdir`) — any previous content or subtree is
discarded.  No hypothesis excludes an existing node at `p`. -/
theorem spec_c9 (p d : String) (fs : Item)
    (hdir : dirChildrenB (getItemAtPath fs (parentOf (resolvePath d p))) = true)
    (hleaf : leafOf (resolvePath d p) ≠ "") :
    (executeCommand "touch" [p] d fs).1 = { output := "", error := none, exitCode := 0 }
    ∧ getItemAtPath (executeCommand "touch" [p] d fs).2 (resolvePath d p) =
        some (mkFileNode (leafOf (resolvePath d p)) "")
    ∧ (executeCommand "mkdir" [p] d fs).1 = { output := "", error := none, exitCode := 0 }
    ∧ getItemAtPath (executeCommand "mkdir" [p] d fs).2 (resolvePath d p) =
        some (mkDirNode (leafOf (resolvePath d p))) := by
  have hcf := createFile_eq fs (resolvePath d p) "" hdir
  have hcd := createDirectory_eq fs (resolvePath d p) hdir
  have h1 : executeCommand "touch" [p] d fs =
      ({ output := "", error := none, exitCode := 0 },
        setChildAt fs (splitFilterB (parentOf (resolvePath d p)))
          (leafOf (resolvePath d p)) (mkFileNode (leafOf (resolvePath d p)) "")) := by
    show handleTouch [p] d fs = _
    rw [handleTouch, if_neg (by simp)]
    simp only [touchLoop, hcf]
  have h2 : executeCommand "mkdir" [p] d fs =
      ({ output := "", error := none, exitCode := 0 },
        setChildAt fs (splitFilterB (parentOf (resolvePath d p)))
          (leafOf (resolvePath d p)) (mkDirNode (leafOf (resolvePath d p)))) := by
    show handleMkdir [p] d fs = _
    rw [handleMkdir, if_neg (by simp)]
    simp only [mkdirLoop, hcd]
  refine ⟨by rw [h1], ?_, by rw [h2], ?_⟩
  · rw [h1]
    exact setChildAt_lookup fs (resolvePath d p) _ hdir hleaf
  · rw [h2]
    exact setChildAt_lookup fs (resolvePath d p) _ hdir hleaf

/-- C9 (witness): at `/home/user` with `p = "documents"` — a path at which
a non-empty *directory* already exists — `touch` exits 0 and replaces it
with an empty file, and `mkdir` exits 0 and replaces it with an empty
directory. -/
theorem spec_c9_w :
    dirChildrenB (getItemAtPath createInitialFileSystem
        (parentOf (resolvePath "/home/user" "documents"))) = true
    ∧ leafOf (resolvePath "/home/user" "documents") ≠ ""
    ∧ (executeCommand "touch" ["documents"] "/home/user" createInitialFileSystem).1 =
        { output := "", error := none, exitCode := 0 }
    ∧ getItemAtPath
        (executeCommand "touch" ["documents"] "/home/user" createInitialFileSystem).2
        (resolvePath "/home/user" "documents") =
        some (mkFileNode "documents" "")
    ∧ (executeCommand "mkdir" ["documents"] "/home/user" createInitialFileSystem).1 =
        { output := "", error := none, exitCode := 0 }
    ∧ getItemAtPath
        (executeCommand "mkdir" ["documents"] "/home/user" createInitialFileSystem).2
        (resolvePath "/home/user" "documents") =
        some (mkDirNode "documents") := by
  obtain ⟨a, b, c, d⟩ := spec_c9 "documents" "/home/user" createInitialFileSystem
    (by decide) (by decide)
  exact ⟨by decide, by decide, a, b, c, d⟩

/-- C1 (counterexample): `execute("clear", [], ...)` does not output the
string `clear-screen`; the code's sentinel is `__CLEAR__` (and `cd`'s
sentinel prefix is `__CD__`, not `change-directory:`). -/
theorem spec_c1_cex :
    (executeCommand "clear" [] "/" createInitialFileSystem).1.output ≠ "clear-screen" := by
  decide

/-- C1 (amended): for every filesystem and current directory,
`execute("clear", [], d, root)` returns exit code 0 and output exactly
`"__CLEAR__"`, and for every non-empty `cd` argument whose resolved target
exists and is a directory, `execute("cd", [p], d, root)` returns exit code 0
and output `"__CD__"` followed by the resolved absolute path.  (Same shape
as the claim; only the two sentinel spellings differ from the spec.) -/
theorem spec_c1 (d : String) (fs : Item) :
    executeCommand "clear" [] d fs =
      ({ output := "__CLEAR__", error := none, exitCode := 0 }, fs)
    ∧ ∀ p : String, p ≠ "" →
        isDirB (getItemAtPath fs (resolvePath d p)) = true →
        executeCommand "cd" [p] d fs =
          ({ output := "__CD__" ++ resolvePath d p, error := none, exitCode := 0 }, fs) := by
  refine ⟨rfl, ?_⟩
  intro p hp hdir
  obtain ⟨it, hit, htyp⟩ := isDirB_elim hdir
  show (handleCd [p] d fs, fs) = _
  simp only [handleCd, if_neg hp, hit]
  rw [if_neg (fun hc => hc htyp)]

/-- C1 (witness): `cd documents` from `/home/user` on the initial tree. -/
theorem spec_c1_w :
    ("documents" : String) ≠ ""
    ∧ isDirB (getItemAtPath createInitialFileSystem
        (resolvePath "/home/user" "documents")) = true
    ∧ executeCommand "cd" ["documents"] "/home/user" createInitialFileSystem =
        ({ output := "__CD__" ++ resolvePath "/home/user" "documents",
           error := none, exitCode := 0 }, createInitialFileSystem) :=
  ⟨by decide, by decide,
    (spec_c1 "/home/user" createInitialFileSystem).2 "documents" (by decide) (by decide)⟩

/-- C8: any command name outside the fixed, case-sensitive dispatch table
yields exit code 127 with error `bash: <name>: command not found`, and the
filesystem is returned unchanged. -/
theorem spec_c8 (command : String) (args : List String) (d : String) (fs : Item)
    (h : command ∉ dispatchNames) :
    executeCommand command args d fs =
      ({ output := "", error := some ("bash: " ++ command ++ ": command not found"),
         exitCode := 127 }, fs) := by
  simp only [dispatchNames, List.mem_cons, List.not_mem_nil, or_false, not_or] at h
  obtain ⟨h1, h2, h3, h4, h5, h6, h7, h8, h9, h10, h11, h12, h13, h14, h15, h16, h17,
    h18, h19, h20, h21, h22, h23, h24, h25, h26, h27, h28, h29⟩ := h
  rw [executeCommand, if_neg h1, if_neg h2, if_neg h3, if_neg h4, if_neg h5, if_neg h6,
    if_neg h7, if_neg h8, if_neg h9, if_neg h10, if_neg h11, if_neg h12, if_neg h13,
    if_neg h14, if_neg h15, if_neg h16, if_neg h17, if_neg h18, if_neg h19, if_neg h20,
    if_neg h21, if_neg h22, if_neg h23, if_neg h24, if_neg h25, if_neg h26, if_neg h27,
    if_neg h28, if_neg h29]

/-- C8 (witness): the spec's own example, `frobnicate`. -/
theorem spec_c8_w :
    ("frobnicate" : String) ∉ dispatchNames
    ∧ executeCommand "frobnicate" [] "/" createInitialFileSystem =
        ({ output := "", error := some "bash: frobnicate: command not found",
           exitCode := 127 }, createInitialFileSystem) :=
  ⟨by decide, spec_c8 "frobnicate" [] "/" createInitialFileSystem (by decide)⟩

/-- C7: for every pattern and file argument resolving to an existing file
node, `grep` matches by literal substring per newline-split line, outputs
the matching lines joined by newline with no error, leaves the filesystem
unchanged, and exits 0 iff at least one line contains the pattern, else 1. -/
theorem spec_c7 (pattern fp d : String) (fs : Item)
    (hfile : isFileB (getItemAtPath fs (resolvePath d fp)) = true) :
    executeCommand "grep" [pattern, fp] d fs =
      ({ output := joinWith "\n" ((linesOfAt fs d fp).filter fun l => jsIncludes l pattern),
         error := none,
         exitCode := if ((linesOfAt fs d fp).filter fun l => jsIncludes l pattern).length > 0
           then 0 else 1 }, fs)
    ∧ ((executeCommand "grep" [pattern, fp] d fs).1.exitCode = 0 ↔
        ∃ l ∈ linesOfAt fs d fp, jsIncludes l pattern = true) := by
  obtain ⟨it, hit, htyp⟩ := isFileB_elim hfile
  have hlines : jsSplit '\n' (it.content.getD "") = linesOfAt fs d fp := by
    rw [linesOfAt, hit]
    rfl
  have hmain : executeCommand "grep" [pattern, fp] d fs =
      ({ output := joinWith "\n" ((linesOfAt fs d fp).filter fun l => jsIncludes l pattern),
         error := none,
         exitCode := if ((linesOfAt fs d fp).filter fun l => jsIncludes l pattern).length > 0
           then 0 else 1 }, fs) := by
    show (handleGrep [pattern, fp] d fs, fs) = _
    simp only [handleGrep, hit]
    rw [if_neg (fun hc => hc htyp), hlines]
  refine ⟨hmain, ?_⟩
  rw [hmain]
  by_cases he : (linesOfAt fs d fp).filter (fun l => jsIncludes l pattern) = []
  · rw [he]
    simp only [List.length_nil, gt_iff_lt, lt_self_iff_false, if_false]
    constructor
    · intro h0; cases h0
    · rintro ⟨l, hl, hinc⟩
      have := (List.filter_eq_nil_iff.mp he) l hl
      rw [hinc] at this
      cases this rfl
  · rw [if_pos (List.length_pos.mpr he)]
    constructor
    · intro _
      obtain ⟨x, hx⟩ := List.exists_mem_of_ne_nil _ he
      rw [List.mem_filter] at hx
      exact ⟨x, hx.1, hx.2⟩
    · intro _; rfl

/-- C7 (witness): `grep Linux readme.txt` in `/home/user/documents` matches
one line; `grep zzz readme.txt` would match none — the single instantiation
here discharges the hypotheses at the matching case. -/
theorem spec_c7_w :
    isFileB (getItemAtPath createInitialFileSystem
        (resolvePath "/home/user/documents" "readme.txt")) = true
    ∧ (executeCommand "grep" ["Linux", "readme.txt"] "/home/user/documents"
        createInitialFileSystem).1.exitCode = 0 := by
  have h := spec_c7 "Linux" "readme.txt" "/home/user/documents" createInitialFileSystem
    (by decide)
  refine ⟨by decide, ?_⟩
  rw [h.1]
  decide

/-- C2 (counterexample): the claim covers every *non-negative* integer token
`N`, but at `N = 0` the code's `parseInt(args[1]) || 10` treats the parsed
`0` as falsy and falls back to 10: `head -n 0 readme.txt` does not output
the first 0 lines (the empty string) — it outputs the first ten (here: all)
lines, i.e. exactly the default-10 result. -/
theorem spec_c2_cex :
    (executeCommand "head" ["-n", "0", "readme.txt"] "/home/user/documents"
        createInitialFileSystem).1.output ≠
      joinWith "\n" ((linesOfAt createInitialFileSystem "/home/user/documents"
        "readme.txt").take 0)
    ∧ (executeCommand "head" ["-n", "0", "readme.txt"] "/home/user/documents"
        createInitialFileSystem).1.output =
      joinWith "\n" ((linesOfAt createInitialFileSystem "/home/user/documents"
        "readme.txt").take 10) := by
  exact ⟨by decide, by decide⟩

/-- C2 (amended): for every file whose resolved path exists,
`head -n N file` outputs the first `N` newline-split lines and
`tail -n N file` the last `N` lines for every *positive* integer token `N`;
when the `-n` flag is absent, or `N` is non-numeric, **or `N` is `0`**, both
default to `N = 10`.  (Exit code 0 and no error in all these cases; `take n`
and `drop (length − n)` are exactly JS `slice(0, n)` / `slice(-n)`.) -/
theorem spec_c2 :
    (∀ (fs : Item) (d fp tok : String) (n : Nat),
      isFileB (getItemAtPath fs (resolvePath d fp)) = true →
      jsParseInt tok = some (n : Int) → 0 < n → tok ≠ "" →
      (executeCommand "head" ["-n", tok, fp] d fs).1 =
        { output := joinWith "\n" ((linesOfAt fs d fp).take n),
          error := none, exitCode := 0 }
      ∧ (executeCommand "tail" ["-n", tok, fp] d fs).1 =
        { output := joinWith "\n"
            ((linesOfAt fs d fp).drop ((linesOfAt fs d fp).length - n)),
          error := none, exitCode := 0 })
    ∧ (∀ (fs : Item) (d fp : String),
      isFileB (getItemAtPath fs (resolvePath d fp)) = true →
      (executeCommand "head" [fp] d fs).1 =
        { output := joinWith "\n" ((linesOfAt fs d fp).take 10),
          error := none, exitCode := 0 }
      ∧ (executeCommand "tail" [fp] d fs).1 =
        { output := joinWith "\n"
            ((linesOfAt fs d fp).drop ((linesOfAt fs d fp).length - 10)),
          error := none, exitCode := 0 })
    ∧ (∀ (fs : Item) (d fp tok : String),
      isFileB (getItemAtPath fs (resolvePath d fp)) = true →
      jsParseInt tok = none → tok ≠ "" →
      (executeCommand "head" ["-n", tok, fp] d fs).1 =
        { output := joinWith "\n" ((linesOfAt fs d fp).take 10),
          error := none, exitCode := 0 }
      ∧ (executeCommand "tail" ["-n", tok, fp] d fs).1 =
        { output := joinWith "\n"
            ((linesOfAt fs d fp).drop ((linesOfAt fs d fp).length - 10)),
          error := none, exitCode := 0 })
    ∧ (∀ (fs : Item) (d fp tok : String),
      isFileB (getItemAtPath fs (resolvePath d fp)) = true →
      jsParseInt tok = some 0 → tok ≠ "" →
      (executeCommand "head" ["-n", tok, fp] d fs).1 =
        { output := joinWith "\n" ((linesOfAt fs d fp).take 10),
          error := none, exitCode := 0 }
      ∧ (executeCommand "tail" ["-n", tok, fp] d fs).1 =
        { output := joinWith "\n"
            ((linesOfAt fs d fp).drop ((linesOfAt fs d fp).length - 10)),
          error := none, exitCode := 0 }) := by
  refine ⟨?_, ?_, ?_, ?_⟩
  · intro fs d fp tok n hfile hparse hpos htok
    obtain ⟨it, hit, htyp⟩ := isFileB_elim hfile
    have hlines : jsSplit '\n' (it.content.getD "") = linesOfAt fs d fp := by
      rw [linesOfAt, hit]
      rfl
    have hn0 : ¬((n : Int) = 0) := by
      simp only [Int.natCast_eq_zero]
      omega
    have hsf : ∀ l : List String, jsSliceFrom l (-(n : Int)) = l.drop (l.length - n) :=
      fun l => jsSliceFrom_negOfNat l n hpos
    constructor
    · show (handleHead ["-n", tok, fp] d fs) = _
      simp only [handleHead, htok, hparse, hit, htyp, hn0, ne_eq, not_false_eq_true,
        true_and, and_true, and_self, if_true, ite_true, ite_false, not_true_eq_false,
        reduceIte, hlines, jsSliceTo_ofNat]
    · show (handleTail ["-n", tok, fp] d fs) = _
      simp only [handleTail, htok, hparse, hit, htyp, hn0, ne_eq, not_false_eq_true,
        true_and, and_true, and_self, if_true, ite_true, ite_false, not_true_eq_false,
        reduceIte, hlines, hsf]
  · intro fs d fp hfile
    obtain ⟨it, hit, htyp⟩ := isFileB_elim hfile
    have hlines : jsSplit '\n' (it.content.getD "") = linesOfAt fs d fp := by
      rw [linesOfAt, hit]
      rfl
    have h10t : ∀ l : List String, jsSliceTo l (10 : Int) = l.take 10 := by
      intro l
      rw [jsSliceTo, if_neg (by omega)]
      rfl
    have h10f : ∀ l : List String, jsSliceFrom l (-(10 : Int)) = l.drop (l.length - 10) := by
      intro l
      rw [jsSliceFrom, if_pos (by omega)]
      congr 1
      omega
    constructor
    · show (handleHead [fp] d fs) = _
      simp only [handleHead, hit, htyp, ne_eq, ite_false, not_true_eq_false, reduceIte,
        hlines, h10t]
    · show (handleTail [fp] d fs) = _
      simp only [handleTail, hit, htyp, ne_eq, ite_false, not_true_eq_false, reduceIte,
        hlines, h10f]
  · intro fs d fp tok hfile hparse htok
    obtain ⟨it, hit, htyp⟩ := isFileB_elim hfile
    have hlines : jsSplit '\n' (it.content.getD "") = linesOfAt fs d fp := by
      rw [linesOfAt, hit]
      rfl
    have h10t : ∀ l : List String, jsSliceTo l (10 : Int) = l.take 10 := by
      intro l
      rw [jsSliceTo, if_neg (by omega)]
      rfl
    have h10f : ∀ l : List String, jsSliceFrom l (-(10 : Int)) = l.drop (l.length - 10) := by
      intro l
      rw [jsSliceFrom, if_pos (by omega)]
      congr 1
      omega
    constructor
    · show (handleHead ["-n", tok, fp] d fs) = _
      simp only [handleHead, htok, hparse, hit, htyp, ne_eq, not_false_eq_true, true_and,
        and_true, and_self, if_true, ite_true, ite_false, not_true_eq_false, reduceIte,
        hlines, h10t]
    · show (handleTail ["-n", tok, fp] d fs) = _
      simp only [handleTail, htok, hparse, hit, htyp, ne_eq, not_false_eq_true, true_and,
        and_true, and_self, if_true, ite_true, ite_false, not_true_eq_false, reduceIte,
        hlines, h10f]
  · intro fs d fp tok hfile hparse htok
    obtain ⟨it, hit, htyp⟩ := isFileB_elim hfile
    have hlines : jsSplit '\n' (it.content.getD "") = linesOfAt fs d fp := by
      rw [linesOfAt, hit]
      rfl
    have h10t : ∀ l : List String, jsSliceTo l (10 : Int) = l.take 10 := by
      intro l
      rw [jsSliceTo, if_neg (by omega)]
      rfl
    have h10f : ∀ l : List String, jsSliceFrom l (-(10 : Int)) = l.drop (l.length - 10) := by
      intro l
      rw [jsSliceFrom, if_pos (by omega)]
      congr 1
      omega
    constructor
    · show (handleHead ["-n", tok, fp] d fs) = _
      simp only [handleHead, htok, hparse, hit, htyp, ne_eq, not_false_eq_true, true_and,
        and_true, and_self, if_true, ite_true, ite_false, not_true_eq_false, reduceIte,
        hlines, h10t]
    · show (handleTail ["-n", tok, fp] d fs) = _
      simp only [handleTail, htok, hparse, hit, htyp, ne_eq, not_false_eq_true, true_and,
        and_true, and_self, if_true, ite_true, ite_false, not_true_eq_false, reduceIte,
        hlines, h10f]

/-- C2 (witness): `head`/`tail -n 2`, the non-numeric fallback `-n abc`,
and the zero fallback `-n 0`, on `readme.txt` from `/home/user/documents`. -/
theorem spec_c2_w :
    isFileB (getItemAtPath createInitialFileSystem
        (resolvePath "/home/user/documents" "readme.txt")) = true
    ∧ jsParseInt "2" = some ((2 : Nat) : Int)
    ∧ 0 < 2
    ∧ ("2" : String) ≠ ""
    ∧ (executeCommand "head" ["-n", "2", "readme.txt"] "/home/user/documents"
        createInitialFileSystem).1 =
      { output := joinWith "\n" ((linesOfAt createInitialFileSystem
          "/home/user/documents" "readme.txt").take 2),
        error := none, exitCode := 0 }
    ∧ (executeCommand "tail" ["-n", "2", "readme.txt"] "/home/user/documents"
        createInitialFileSystem).1 =
      { output := joinWith "\n" ((linesOfAt createInitialFileSystem
          "/home/user/documents" "readme.txt").drop
          ((linesOfAt createInitialFileSystem "/home/user/documents" "readme.txt").length - 2)),
        error := none, exitCode := 0 }
    ∧ jsParseInt "abc" = none
    ∧ (executeCommand "head" ["-n", "abc", "readme.txt"] "/home/user/documents"
        createInitialFileSystem).1 =
      { output := joinWith "\n" ((linesOfAt createInitialFileSystem
          "/home/user/documents" "readme.txt").take 10),
        error := none, exitCode := 0 }
    ∧ jsParseInt "0" = some 0
    ∧ (executeCommand "head" ["-n", "0", "readme.txt"] "/home/user/documents"
        createInitialFileSystem).1 =
      { output := joinWith "\n" ((linesOfAt createInitialFileSystem
          "/home/user/documents" "readme.txt").take 10),
        error := none, exitCode := 0 }
    ∧ (executeCommand "tail" ["-n", "0", "readme.txt"] "/home/user/documents"
        createInitialFileSystem).1 =
      { output := joinWith "\n" ((linesOfAt createInitialFileSystem
          "/home/user/documents" "readme.txt").drop
          ((linesOfAt createInitialFileSystem "/home/user/documents" "readme.txt").length - 10)),
        error := none, exitCode := 0 } := by
  obtain ⟨hh, ht⟩ := spec_c2.1 createInitialFileSystem "/home/user/documents" "readme.txt"
    "2" 2 (by decide) (by decide) (by decide) (by decide)
  obtain ⟨hh2, _⟩ := spec_c2.2.2.1 createInitialFileSystem "/home/user/documents" "readme.txt"
    "abc" (by decide) (by decide) (by decide)
  obtain ⟨hh0, ht0⟩ := spec_c2.2.2.2 createInitialFileSystem "/home/user/documents" "readme.txt"
    "0" (by decide) (by decide) (by decide)
  exact ⟨by decide, by decide, by decide, by decide, hh, ht, by decide, hh2,
    by decide, hh0, ht0⟩

end WebTerm
